import Mathlib

/-!
Shallow embedding of the non-destructive photo-editing engine implemented in
src/components/PhotoEditor.tsx, together with proofs of the behavioural
properties stated in the design specification.

Numeric modelling: JavaScript numbers are modelled by elements of a linear
ordered field K (instantiated at ℚ for concrete evaluation and at ℝ for the
raster pipeline, which needs square roots and trigonometric functions).
Machine floating point rounding is not modelled; the formulas are the exact
arithmetic of the source.  Canvas byte quantization of image data is likewise
modelled exactly (channels are field elements on the 0..255 scale, alpha on
the 0..1 scale).
-/

namespace IvanPhoto

variable {K : Type} [LinearOrderedField K]

/-- RGB color triple, channels on the 0..255 scale (one canvas ImageData
pixel, alpha channel omitted where the code never touches it). -/
structure RGB (K : Type) where
  r : K
  g : K
  b : K
deriving DecidableEq, Repr

/-- HSL triple as produced by rgbToHsl in the source: hue in degrees
[0,360), saturation and lightness in [0,1]. -/
structure HSL (K : Type) where
  h : K
  s : K
  l : K
deriving DecidableEq, Repr

/-- JavaScript Math.round: round half away from zero is Math.round only for
non-negative inputs; JS Math.round rounds half toward positive infinity,
which is floor(x + 1/2). -/
def jsRound [FloorRing K] (x : K) : K :=
  ⌊x + 1 / 2⌋

/-- Clamp helper, Math.max lo (Math.min hi x). -/
def clampTo (lo hi x : K) : K :=
  max lo (min hi x)

/-- Translation of rgbToHsl (PhotoEditor.tsx line 538): channels are divided
by 255; the switch on the maximal channel tries r, then g, then b, matching
the strict equality tests of the JS switch. -/
def rgbToHsl (r0 g0 b0 : K) : HSL K :=
  let r := r0 / 255
  let g := g0 / 255
  let b := b0 / 255
  let maxC := max r (max g b)
  let minC := min r (min g b)
  let l := (maxC + minC) / 2
  if maxC = minC then ⟨0, 0, l⟩
  else
    let d := maxC - minC
    let s := if l > 1 / 2 then d / (2 - maxC - minC) else d / (maxC + minC)
    let h :=
      if maxC = r then (g - b) / d + (if g < b then 6 else 0)
      else if maxC = g then (b - r) / d + 2
      else (r - g) / d + 4
    ⟨h / 6 * 360, s, l⟩

/-- Helper hue2rgb of hslToRgb (PhotoEditor.tsx line 563). -/
def hue2rgb (p q t0 : K) : K :=
  let t1 := if t0 < 0 then t0 + 1 else t0
  let t := if t1 > 1 then t1 - 1 else t1
  if t < 1 / 6 then p + (q - p) * 6 * t
  else if t < 1 / 2 then q
  else if t < 2 / 3 then p + (q - p) * (2 / 3 - t) * 6
  else p

/-- Translation of hslToRgb (PhotoEditor.tsx line 557); hue is given in
degrees and divided by 360, results are scaled back to 0..255 and rounded
with Math.round. -/
def hslToRgb [FloorRing K] (h0 s l : K) : RGB K :=
  if s = 0 then
    ⟨jsRound (l * 255), jsRound (l * 255), jsRound (l * 255)⟩
  else
    let q := if l < 1 / 2 then l * (1 + s) else l + s - l * s
    let p := 2 * l - q
    let h := h0 / 360
    ⟨jsRound (hue2rgb p q (h + 1 / 3) * 255),
     jsRound (hue2rgb p q h * 255),
     jsRound (hue2rgb p q (h - 1 / 3) * 255)⟩

/-- Skin-tone protection factor of applyVibrance (PhotoEditor.tsx lines
605-609): inside the open hue band (15,45) the factor is
min 1 (|h-30|/15 * 0.7 + 0.3), outside it is 1. -/
def skinProtectFactor (h : K) : K :=
  if 15 < h ∧ h < 45 then min 1 (|h - 30| / 15 * (7 / 10) + 3 / 10) else 1

/-- Per-pixel body of the applyVibrance loop (PhotoEditor.tsx lines
596-620).  Pixels with saturation below 0.05 are skipped; otherwise the
saturation receives the boost amount * (1 - s^2) * skinProtect and is
clamped to [0,1]; the pixel is rewritten only when the saturation actually
changed. -/
def applyVibrancePixel [FloorRing K] (vibrance : K) (px : RGB K) : RGB K :=
  let amount := vibrance / 50
  let hsl := rgbToHsl px.r px.g px.b
  if hsl.s < 5 / 100 then px
  else
    let saturationBoost := amount * (1 - hsl.s ^ 2) * skinProtectFactor hsl.h
    let newS := max 0 (min 1 (hsl.s + saturationBoost))
    if newS = hsl.s then px else hslToRgb hsl.h newS hsl.l

/-- Hue/saturation/lightness shift triple of one color-mixer channel. -/
structure HSLShift (K : Type) where
  h : K
  s : K
  l : K
deriving DecidableEq, Repr

/-- ColorMixerAdjustments record (PhotoEditor.tsx line 96): one shift triple
per fixed hue band. -/
structure ColorMixer (K : Type) where
  reds : HSLShift K
  oranges : HSLShift K
  yellows : HSLShift K
  greens : HSLShift K
  aquas : HSLShift K
  blues : HSLShift K
  purples : HSLShift K
  magentas : HSLShift K
deriving DecidableEq, Repr

/-- All-zero color mixer, INITIAL_COLOR_MIXER in the source. -/
def initialColorMixer : ColorMixer K :=
  ⟨⟨0, 0, 0⟩, ⟨0, 0, 0⟩, ⟨0, 0, 0⟩, ⟨0, 0, 0⟩, ⟨0, 0, 0⟩, ⟨0, 0, 0⟩, ⟨0, 0, 0⟩, ⟨0, 0, 0⟩⟩

/-- COLOR_RANGES table (PhotoEditor.tsx lines 581-590) paired with the
corresponding mixer channel values, in JS object iteration order. -/
def colorRangesWith (m : ColorMixer K) : List (K × K × HSLShift K) :=
  [(0, 60, m.reds), (30, 30, m.oranges), (60, 30, m.yellows), (120, 90, m.greens),
   (180, 30, m.aquas), (225, 90, m.blues), (285, 30, m.purples), (330, 60, m.magentas)]

/-- Angular distance and influence accumulation of the applyColorMixer inner
loop (PhotoEditor.tsx lines 634-649): returns the accumulated
(totalH, totalS, totalL). -/
def mixerTotals (m : ColorMixer K) (h : K) : K × K × K :=
  (colorRangesWith m).foldl
    (fun acc entry =>
      let center := entry.1
      let range := entry.2.1
      let c := entry.2.2
      let dist0 := |h - center|
      let dist := if dist0 > 180 then 360 - dist0 else dist0
      let influence := max 0 (1 - dist / (range / 2))
      if influence > 0 then
        (acc.1 + c.h * influence, acc.2.1 + c.s / 100 * influence, acc.2.2 + c.l / 100 * influence)
      else acc)
    (0, 0, 0)

/-- JavaScript truncating behaviour of the % operator for a non-negative
dividend and positive divisor (the only case reached by applyColorMixer,
where the dividend is h + totalH + 360). -/
def jsMod [FloorRing K] (a b : K) : K :=
  a - b * (if 0 ≤ a / b then (⌊a / b⌋ : K) else -(⌊-(a / b)⌋ : K))

/-- Per-pixel body of the applyColorMixer loop (PhotoEditor.tsx lines
626-659).  Pixels with saturation below 0.01 are skipped; otherwise the
accumulated band shifts are applied, saturation and lightness are clamped to
[0,1] and the hue is wrapped modulo 360. -/
def applyColorMixerPixel [FloorRing K] (m : ColorMixer K) (px : RGB K) : RGB K :=
  let hsl := rgbToHsl px.r px.g px.b
  if hsl.s < 1 / 100 then px
  else
    let totals := mixerTotals m hsl.h
    let newH := jsMod (hsl.h + totals.1 + 360) 360
    let newS := max 0 (min 1 (hsl.s + totals.2.1))
    let newL := max 0 (min 1 (hsl.l + totals.2.2))
    hslToRgb newH newS newL

/-- Adjustments record, the shape of INITIAL_ADJUSTMENTS (PhotoEditor.tsx
lines 111-128), fields in source order. -/
structure AdjustmentsRec (K : Type) where
  enhance : K
  accent : K
  brightness : K
  exposure : K
  contrast : K
  highlights : K
  shadows : K
  vignette : K
  saturate : K
  vibrance : K
  temperature : K
  tint : K
  clarity : K
  dehaze : K
  blur : K
  colorMixer : ColorMixer K
deriving DecidableEq, Repr

/-- INITIAL_ADJUSTMENTS: the all-neutral record, every scalar zero and the
all-zero color mixer. -/
def neutralAdjustments : AdjustmentsRec K :=
  ⟨0, 0, 0, 0, 0, 0, 0, 0, 0, 0, 0, 0, 0, 0, 0, initialColorMixer⟩

/-- One color-mixer channel carries a non-zero shift (the inner some of the
isColorMixerActive test, PhotoEditor.tsx line 699). -/
def mixerChannelActive (c : HSLShift K) : Prop :=
  c.h ≠ 0 ∨ c.s ≠ 0 ∨ c.l ≠ 0

/-- Translation of isColorMixerActive (PhotoEditor.tsx line 699): some
channel of the mixer carries a non-zero shift. -/
def colorMixerActive (m : ColorMixer K) : Prop :=
  mixerChannelActive m.reds ∨ mixerChannelActive m.oranges ∨ mixerChannelActive m.yellows ∨
  mixerChannelActive m.greens ∨ mixerChannelActive m.aquas ∨ mixerChannelActive m.blues ∨
  mixerChannelActive m.purples ∨ mixerChannelActive m.magentas

instance (c : HSLShift K) : Decidable (mixerChannelActive c) := by
  unfold mixerChannelActive; infer_instance

instance (m : ColorMixer K) : Decidable (colorMixerActive m) := by
  unfold colorMixerActive; infer_instance

/-- Translation of the hasBrushAdjustments test of the mask-layer
compositing effect (PhotoEditor.tsx line 1423): some scalar field of the
layer Adjustments is non-zero, or some color-mixer channel is non-zero. -/
def hasBrushAdjustments (a : AdjustmentsRec K) : Prop :=
  a.enhance ≠ 0 ∨ a.accent ≠ 0 ∨ a.brightness ≠ 0 ∨ a.exposure ≠ 0 ∨ a.contrast ≠ 0 ∨
  a.highlights ≠ 0 ∨ a.shadows ≠ 0 ∨ a.vignette ≠ 0 ∨ a.saturate ≠ 0 ∨ a.vibrance ≠ 0 ∨
  a.temperature ≠ 0 ∨ a.tint ≠ 0 ∨ a.clarity ≠ 0 ∨ a.dehaze ≠ 0 ∨ a.blur ≠ 0 ∨
  colorMixerActive a.colorMixer

instance (a : AdjustmentsRec K) : Decidable (hasBrushAdjustments a) := by
  unfold hasBrushAdjustments; infer_instance

/-- The JS spread { ...adjustments, ...layer.adjustments } of the compositor
(PhotoEditor.tsx line 1432).  The layer Adjustments is a complete record, so
every field of the global record is overridden by the layer field. -/
def jsSpreadMerge (_base override : AdjustmentsRec K) : AdjustmentsRec K :=
  { enhance := override.enhance, accent := override.accent, brightness := override.brightness,
    exposure := override.exposure, contrast := override.contrast, highlights := override.highlights,
    shadows := override.shadows, vignette := override.vignette, saturate := override.saturate,
    vibrance := override.vibrance, temperature := override.temperature, tint := override.tint,
    clarity := override.clarity, dehaze := override.dehaze, blur := override.blur,
    colorMixer := override.colorMixer }

/-- Full-color raster: the contents of a canvas of the given dimensions;
channels on the 0..255 scale.  Pixel-identical means equal data functions
(and equal dimensions). -/
structure Raster (K : Type) where
  width : K
  height : K
  data : K × K → RGB K

/-- Map a per-pixel function over a raster, preserving dimensions. -/
def mapPixels (f : RGB K → RGB K) (r : Raster K) : Raster K :=
  ⟨r.width, r.height, fun p => f (r.data p)⟩

/-- Transfer function of the CSS brightness(k) filter on one channel of the
0..255 scale: multiply by the factor. -/
def cssBrightnessRGB (k : K) (c : RGB K) : RGB K :=
  ⟨c.r * k, c.g * k, c.b * k⟩

/-- Transfer function of the CSS contrast(k) filter on the 0..255 scale:
linear with pivot 127.5. -/
def cssContrastRGB (k : K) (c : RGB K) : RGB K :=
  ⟨(c.r - 255 / 2) * k + 255 / 2, (c.g - 255 / 2) * k + 255 / 2, (c.b - 255 / 2) * k + 255 / 2⟩

/-- Transfer function of the CSS saturate(k) filter: the standard luminance
color matrix with coefficients 0.213 / 0.715 / 0.072. -/
def cssSaturateRGB (k : K) (c : RGB K) : RGB K :=
  ⟨(213 / 1000 + 787 / 1000 * k) * c.r + (715 / 1000 - 715 / 1000 * k) * c.g +
     (72 / 1000 - 72 / 1000 * k) * c.b,
   (213 / 1000 - 213 / 1000 * k) * c.r + (715 / 1000 + 285 / 1000 * k) * c.g +
     (72 / 1000 - 72 / 1000 * k) * c.b,
   (213 / 1000 - 213 / 1000 * k) * c.r + (715 / 1000 - 715 / 1000 * k) * c.g +
     (72 / 1000 + 928 / 1000 * k) * c.b⟩

/-- Clamp every channel to the representable 0..255 range (canvas storage). -/
def clampRGB (c : RGB K) : RGB K :=
  ⟨clampTo 0 255 c.r, clampTo 0 255 c.g, clampTo 0 255 c.b⟩

/-- Overlay blend mode on one channel pair, 0..255 scale (W3C compositing:
overlay(cb, cs) = hard-light(cs, cb)). -/
def overlayBlendChannel (cb cs : K) : K :=
  if cb ≤ 255 / 2 then 2 * cb * cs / 255 else 255 - 2 * (255 - cb) * (255 - cs) / 255

/-- Soft-light blend mode on one channel pair, 0..255 scale, W3C formula
evaluated on normalized values (needs a square root). -/
noncomputable def softLightChannel (cb cs : ℝ) : ℝ :=
  let nb := cb / 255
  let ns := cs / 255
  let res :=
    if ns ≤ 1 / 2 then nb - (1 - 2 * ns) * nb * (1 - nb)
    else
      let d := if nb ≤ 1 / 4 then ((16 * nb - 12) * nb + 4) * nb else Real.sqrt nb
      nb + (2 * ns - 1) * (d - nb)
  res * 255

/-- Composite a constant fill of the given color and alpha over an opaque
backdrop pixel with the given separable blend mode (ctx.fillRect with a
globalCompositeOperation blend mode, opaque destination). -/
def blendFillOpaque (blend : K → K → K) (fill : RGB K) (alpha : K) (c : RGB K) : RGB K :=
  ⟨(1 - alpha) * c.r + alpha * blend c.r fill.r,
   (1 - alpha) * c.g + alpha * blend c.g fill.g,
   (1 - alpha) * c.b + alpha * blend c.b fill.b⟩

/-- Source-over composite of a black fill of the given alpha onto an opaque
backdrop pixel (the vignette fill, PhotoEditor.tsx lines 746-755). -/
def blackOverOpaque (alpha : K) (c : RGB K) : RGB K :=
  ⟨(1 - alpha) * c.r, (1 - alpha) * c.g, (1 - alpha) * c.b⟩

/-- Alpha of the vignette radial gradient at a pixel (PhotoEditor.tsx lines
747-753): linear ramp from 0 at radius outer*(1 - vignette/100) to
vignette/100 * 0.8 at the outer radius (the image half-diagonal). -/
noncomputable def vignetteAlpha (w h vignette : ℝ) (p : ℝ × ℝ) : ℝ :=
  let outerRadius := Real.sqrt ((w / 2) ^ 2 + (h / 2) ^ 2)
  let innerRadius := outerRadius * (1 - vignette / 100)
  let d := Real.sqrt ((p.1 - w / 2) ^ 2 + (p.2 - h / 2) ^ 2)
  let t := clampTo 0 1 ((d - innerRadius) / (outerRadius - innerRadius))
  t * (vignette / 100 * (8 / 10))

/-- Translation of applyAdjustmentsToContext (PhotoEditor.tsx lines
662-757).  The two cross-pixel filters referenced by the CSS filter list —
blur(px) and the photo-editor-sharpen SVG filter — are whole-raster
transforms external to this function and are taken as parameters blurF and
sharpenF.  Stages in source order: the combined
brightness/contrast/saturate filter pass (with the effective meta-slider
folding), the optional blur and sharpen passes, the optional
vibrance/color-mixer pixel pass, temperature and tint overlay fills,
highlight and shadow soft-light fills, and the vignette. -/
noncomputable def applyAdjustmentsToContext (blurF : ℝ → Raster ℝ → Raster ℝ)
    (sharpenF : Raster ℝ → Raster ℝ) (a : AdjustmentsRec ℝ) (source : Raster ℝ) : Raster ℝ :=
  let enhanceRatio := a.enhance / 100
  let accentRatio := a.accent / 100
  let baseShadows := a.shadows + accentRatio * 50
  let baseHighlights := a.highlights - accentRatio * 40
  let effectiveShadows := clampTo (-100) 100 (baseShadows + enhanceRatio * 40)
  let effectiveHighlights := clampTo (-100) 100 (baseHighlights + enhanceRatio * (-30))
  let effectiveContrast := clampTo (-100) 100 (a.contrast + enhanceRatio * 15 + a.dehaze * (3 / 10))
  let effectiveSaturate := clampTo (-100) 100 (a.saturate + enhanceRatio * 10 + a.dehaze * (15 / 100))
  let effectiveClarity := clampTo 0 10 (a.clarity + enhanceRatio * 2)
  let filtered := mapPixels (fun c =>
    clampRGB (cssSaturateRGB ((100 + effectiveSaturate) / 100)
      (cssContrastRGB ((100 + effectiveContrast + effectiveClarity * (5 / 2)) / 100)
        (cssBrightnessRGB ((100 + a.brightness + a.exposure - a.dehaze * (1 / 10)) / 100) c)))) source
  let blurred := if 0 < a.blur then blurF a.blur filtered else filtered
  let sharpened := if 5 < effectiveClarity then sharpenF blurred else blurred
  let pixelProcessed :=
    if a.vibrance ≠ 0 ∨ colorMixerActive a.colorMixer then
      mapPixels (fun c =>
        let c1 := if a.vibrance ≠ 0 then applyVibrancePixel a.vibrance c else c
        if colorMixerActive a.colorMixer then applyColorMixerPixel a.colorMixer c1 else c1) sharpened
    else sharpened
  let afterTemperature :=
    if a.temperature ≠ 0 then
      mapPixels (blendFillOpaque overlayBlendChannel
        (if 0 < a.temperature then ⟨255, 165, 0⟩ else ⟨0, 100, 255⟩) (|a.temperature| / 250))
        pixelProcessed
    else pixelProcessed
  let afterTint :=
    if a.tint ≠ 0 then
      mapPixels (blendFillOpaque overlayBlendChannel
        (if 0 < a.tint then ⟨255, 0, 255⟩ else ⟨0, 255, 0⟩) (|a.tint| / 250)) afterTemperature
    else afterTemperature
  let afterHighlights :=
    if effectiveHighlights ≠ 0 then
      mapPixels (blendFillOpaque softLightChannel
        (if 0 < effectiveHighlights then ⟨255, 255, 255⟩ else ⟨0, 0, 0⟩)
        (|effectiveHighlights| / 100)) afterTint
    else afterTint
  let afterShadows :=
    if effectiveShadows ≠ 0 then
      let t := |effectiveShadows| / 100
      mapPixels (blendFillOpaque softLightChannel
        (if 0 < effectiveShadows then ⟨255, 255, 255⟩ else ⟨0, 0, 0⟩)
        (t * Real.sqrt t)) afterHighlights
    else afterHighlights
  if 0 < a.vignette then
    ⟨afterShadows.width, afterShadows.height, fun p =>
      blackOverOpaque (vignetteAlpha afterShadows.width afterShadows.height a.vignette p)
        (afterShadows.data p)⟩
  else afterShadows

/-- Premultiplied RGBA pixel of a compositing canvas: color channels on the
0..255 scale premultiplied by the alpha, alpha in [0,1]. -/
structure Pixel (K : Type) where
  r : K
  g : K
  b : K
  a : K
deriving DecidableEq, Repr

/-- View an opaque RGB pixel as a premultiplied RGBA pixel. -/
def rgbOpaque (c : RGB K) : Pixel K :=
  ⟨c.r, c.g, c.b, 1⟩

/-- Forget the alpha channel of a premultiplied pixel (used only on opaque
pixels). -/
def pixelRGB (px : Pixel K) : RGB K :=
  ⟨px.r, px.g, px.b⟩

/-- Porter-Duff source-over on premultiplied pixels. -/
def pxOver (s d : Pixel K) : Pixel K :=
  ⟨s.r + d.r * (1 - s.a), s.g + d.g * (1 - s.a), s.b + d.b * (1 - s.a), s.a + d.a * (1 - s.a)⟩

/-- Porter-Duff destination-in: keep the destination weighted by the source
alpha. -/
def pxDestIn (srcAlpha : K) (d : Pixel K) : Pixel K :=
  ⟨d.r * srcAlpha, d.g * srcAlpha, d.b * srcAlpha, d.a * srcAlpha⟩

/-- Canvas lighter (plus) compositing on premultiplied pixels, channels
clamped at 255 and alpha at 1. -/
def pxPlus (s d : Pixel K) : Pixel K :=
  ⟨min 255 (s.r + d.r), min 255 (s.g + d.g), min 255 (s.b + d.b), min 1 (s.a + d.a)⟩

/-- Fully transparent pixel (a cleared canvas). -/
def pxClear : Pixel K :=
  ⟨0, 0, 0, 0⟩

/-- Premultiplied pixel of a constant fill color with the given alpha. -/
def fillPixel (c : RGB K) (alpha : K) : Pixel K :=
  ⟨c.r * alpha, c.g * alpha, c.b * alpha, alpha⟩

/-- Alpha channel of Porter-Duff source-over (mask canvases are used only
through their alpha channel). -/
def alphaSourceOver (s d : K) : K :=
  s + d * (1 - s)

/-- Alpha channel of Porter-Duff destination-out (erase strokes). -/
def alphaDestOut (s d : K) : K :=
  d * (1 - s)

/-- Alpha channel of Porter-Duff source-out (the invert step fills white
with source-out compositing, PhotoEditor.tsx lines 1369-1374). -/
def alphaSourceOut (s d : K) : K :=
  s * (1 - d)

/-- Brush parameters of a RawBrushStroke (PhotoEditor.tsx line 52): size
(brush diameter in px), feather and strength percentages, and the erase
flag of the adjustment-brush settings (false when the settings carry no
isErasing field, matching the `isErasing` in settings test of
drawFeatheredStroke). -/
structure BrushSettings where
  size : ℝ
  feather : ℝ
  strength : ℝ
  isErasing : Bool

/-- RawBrushStroke: an ordered list of image-space points plus brush
parameters. -/
structure Stroke where
  id : String
  points : List (ℝ × ℝ)
  settings : BrushSettings

/-- Inner color stop position of one brush dab (PhotoEditor.tsx lines
1505-1507): 1 - sqrt(feather/100), clamped below at 0
(Math.pow(featherRatio, 0.5) is the square root). -/
noncomputable def dabInnerStop (feather : ℝ) : ℝ :=
  max 0 (1 - Real.sqrt (feather / 100))

/-- Alpha painted by one radial-gradient brush dab at distance d from the
dab center (drawBrushDab, PhotoEditor.tsx lines 1501-1520): nothing outside
the arc of radius size/2 or for a non-positive radius; full strength
strength/100 out to innerStop * radius; a linear fade to 0 at the radius.
The piecewise-linear profile is the canvas radial gradient with stops
(0, strength/100), (innerStop, strength/100), (1, 0). -/
noncomputable def dabAlpha (size feather strength : ℝ) (d : ℝ) : ℝ :=
  let brushRadius := size / 2
  if brushRadius ≤ 0 then 0
  else
    let innerStop := dabInnerStop feather
    let a := strength / 100
    if brushRadius ≤ d then 0
    else if d ≤ innerStop * brushRadius then a
    else a * (brushRadius - d) / (brushRadius - innerStop * brushRadius)

/-- Sampling step of the stroke resampling loop (PhotoEditor.tsx lines
1530-1531): Math.min(10, size/4), then floored at 1 by the loop increment
Math.max(1, step). -/
noncomputable def resampleStep (size : ℝ) : ℝ :=
  max 1 (min 10 (size / 4))

/-- Sample points of one polyline segment (PhotoEditor.tsx lines 1525-1535):
the loop places samples at arc-length offsets 0, step, 2*step, ... strictly
below the segment length.  The source computes each sample as
p1 + j * (cos angle, sin angle) with angle = atan2(dy, dx), and
cos (atan2 dy dx) = dx / dist, sin (atan2 dy dx) = dy / dist. -/
noncomputable def segmentSamples (p1 p2 : ℝ × ℝ) (size : ℝ) : List (ℝ × ℝ) :=
  let dx := p2.1 - p1.1
  let dy := p2.2 - p1.2
  let dist := Real.sqrt (dx ^ 2 + dy ^ 2)
  let step := resampleStep size
  (List.range ⌈dist / step⌉₊).map fun j : ℕ =>
    (p1.1 + (j : ℝ) * step * dx / dist, p1.2 + (j : ℝ) * step * dy / dist)

/-- Dab centers of one committed stroke (drawFeatheredStroke,
PhotoEditor.tsx lines 1522-1537): a single dab for a one-point stroke,
otherwise the resampled points of every consecutive segment. -/
noncomputable def strokeSamplePoints (points : List (ℝ × ℝ)) (size : ℝ) : List (ℝ × ℝ) :=
  match points with
  | [p] => [p]
  | ps => ((ps.zip ps.tail).map fun pr => segmentSamples pr.1 pr.2 size).flatten

/-- Alpha-channel effect of drawFeatheredStroke (PhotoEditor.tsx lines
1495-1539) on a mask surface: each dab composites with destination-out when
the stroke erases and source-over when it paints. -/
noncomputable def drawFeatheredStroke (stroke : Stroke) (mask : ℝ × ℝ → ℝ) : ℝ × ℝ → ℝ :=
  fun p =>
    (strokeSamplePoints stroke.points stroke.settings.size).foldl
      (fun acc q =>
        let d := Real.sqrt ((p.1 - q.1) ^ 2 + (p.2 - q.2) ^ 2)
        let s := dabAlpha stroke.settings.size stroke.settings.feather stroke.settings.strength d
        if stroke.settings.isErasing then alphaDestOut s acc else alphaSourceOver s acc)
      (mask p)

/-- Mask kind of a MaskLayer (PhotoEditor.tsx line 58). -/
inductive MaskKind where
  | brush : MaskKind
  | linear : MaskKind
  | radial : MaskKind
deriving DecidableEq, Repr

/-- Gradient descriptor of a MaskLayer (PhotoEditor.tsx lines 66-72), in
percentage-of-image coordinates. -/
structure GradientDesc where
  start : ℝ × ℝ
  stop : ℝ × ℝ
  radiusY : Option ℝ
  rotation : Option ℝ
  feather : ℝ

/-- Alpha of a linear-gradient mask at a pixel (PhotoEditor.tsx lines
1327-1339): the canvas linear gradient ramps the white alpha from 1 at the
start point to 0 at the end point along the axis, clamped beyond the
stops; the projection parameter is the scalar product with the axis over
its squared length. -/
noncomputable def linearGradientAlpha (w h : ℝ) (g : GradientDesc) (p : ℝ × ℝ) : ℝ :=
  let x1 := g.start.1 / 100 * w
  let y1 := g.start.2 / 100 * h
  let x2 := g.stop.1 / 100 * w
  let y2 := g.stop.2 / 100 * h
  let t := ((p.1 - x1) * (x2 - x1) + (p.2 - y1) * (y2 - y1)) /
    ((x2 - x1) ^ 2 + (y2 - y1) ^ 2)
  1 - clampTo 0 1 t

/-- Alpha of a radial-gradient mask at a pixel (PhotoEditor.tsx lines
1340-1365).  The device point is pulled back through the translate /
rotate / scale(1, ry/rx) transform; inside the filled square the canvas
radial gradient of radius rx gives alpha 1 out to the inner stop
1 - feather/100 (clamped at 0) and a linear fade to 0 at the radius.  The
JS expressions radiusY || 1 and the if (rotation) guard treat 0 as absent. -/
noncomputable def radialGradientAlpha (w h : ℝ) (g : GradientDesc) (p : ℝ × ℝ) : ℝ :=
  let cx := g.start.1 / 100 * w
  let cy := g.start.2 / 100 * h
  let rx := Real.sqrt (((g.stop.1 - g.start.1) / 100 * w) ^ 2 +
    ((g.stop.2 - g.start.2) / 100 * h) ^ 2)
  let ratio := match g.radiusY with
    | none => 1
    | some v => if v = 0 then 1 else v
  let ry := rx * ratio
  let rot := (match g.rotation with
    | none => 0
    | some v => v) * Real.pi / 180
  let qx := p.1 - cx
  let qy := p.2 - cy
  let ux := qx * Real.cos rot + qy * Real.sin rot
  let uy := -qx * Real.sin rot + qy * Real.cos rot
  let ly := uy / (ry / rx)
  let maxR := max rx ry
  let bound := maxR * 2 / (ry / rx)
  if -bound ≤ ux ∧ ux ≤ bound ∧ -bound ≤ ly ∧ ly ≤ bound then
    let t := Real.sqrt (ux ^ 2 + ly ^ 2) / rx
    let innerStop := max 0 (1 - g.feather / 100)
    if 1 ≤ t then 0
    else if t ≤ innerStop then 1
    else (1 - t) / (1 - innerStop)
  else 0

/-- MaskLayer record (PhotoEditor.tsx lines 60-75); the maskKind field
models the `type` discriminant of the source. -/
structure MaskLayerRec where
  id : String
  name : String
  isVisible : Bool
  maskKind : MaskKind
  strokes : List Stroke
  gradient : Option GradientDesc
  invert : Bool
  adjustments : AdjustmentsRec ℝ

/-- Geometry pass of the mask-surface effect (PhotoEditor.tsx lines
1319-1367): starting from a cleared canvas, brush layers paint their
committed strokes; gradient layers paint their gradient descriptor when
present. -/
noncomputable def maskGeometryAlpha (w h : ℝ) (layer : MaskLayerRec) : ℝ × ℝ → ℝ :=
  fun p =>
    match layer.maskKind with
    | .brush => (layer.strokes.foldl (fun m s => drawFeatheredStroke s m) (fun _ => 0)) p
    | .linear =>
        match layer.gradient with
        | none => 0
        | some g => linearGradientAlpha w h g p
    | .radial =>
        match layer.gradient with
        | none => 0
        | some g => radialGradientAlpha w h g p

/-- Full mask surface of a layer (PhotoEditor.tsx lines 1308-1375): the
geometry pass followed by the invert step, which fills white with
source-out compositing and therefore replaces the alpha a by 1 - a. -/
noncomputable def maskSurfaceAlpha (w h : ℝ) (layer : MaskLayerRec) : ℝ × ℝ → ℝ :=
  fun p =>
    let g := maskGeometryAlpha w h layer p
    if layer.invert then alphaSourceOut 1 g else g

/-- One step of the mask-layer compositing loop (PhotoEditor.tsx lines
1417-1439): invisible layers and layers without brush adjustments leave the
running canvas untouched; otherwise the full adjustment pipeline runs on
the original source with the spread-merged adjustments, the result is
masked by the layer mask with destination-in, and composited source-over
onto the running canvas. -/
noncomputable def compositeMaskLayer (blurF : ℝ → Raster ℝ → Raster ℝ)
    (sharpenF : Raster ℝ → Raster ℝ) (globalAdj : AdjustmentsRec ℝ) (source : Raster ℝ)
    (acc : ℝ × ℝ → Pixel ℝ) (layer : MaskLayerRec) : ℝ × ℝ → Pixel ℝ :=
  if !layer.isVisible then acc
  else if ¬ hasBrushAdjustments layer.adjustments then acc
  else
    let temp := applyAdjustmentsToContext blurF sharpenF
      (jsSpreadMerge globalAdj layer.adjustments) source
    fun p =>
      pxOver (pxDestIn (maskSurfaceAlpha source.width source.height layer p)
        (rgbOpaque (temp.data p))) (acc p)

/-- Mask-layer composite of the visible-canvas effect (PhotoEditor.tsx
lines 1414-1439): the globally-adjusted base raster, with every mask layer
folded over it in array order. -/
noncomputable def maskLayerComposite (blurF : ℝ → Raster ℝ → Raster ℝ)
    (sharpenF : Raster ℝ → Raster ℝ) (globalAdj : AdjustmentsRec ℝ) (source : Raster ℝ)
    (layers : List MaskLayerRec) : ℝ × ℝ → Pixel ℝ :=
  layers.foldl (compositeMaskLayer blurF sharpenF globalAdj source)
    (fun p => rgbOpaque ((applyAdjustmentsToContext blurF sharpenF globalAdj source).data p))

/-- Light-brush mode (LightBrushPanel.tsx lines 5-17). -/
inductive LightBrushMode where
  | increaseWhiteLight | increaseYellowLight | increaseBlueDark
  | decreaseBrightness | decreaseHighlights | increaseShadows
  | increaseContrast | decreaseContrast | increaseSaturation | decreaseSaturation
  | increaseSharpness | increaseBlur
deriving DecidableEq, Repr

/-- LightBrushSettings (LightBrushPanel.tsx lines 19-25); the hex color
string of the source is modelled by its decoded RGB triple (hexToRgb,
PhotoEditor.tsx lines 1541-1548).  There is no erase flag. -/
structure LightSettings where
  size : ℝ
  strength : ℝ
  feather : ℝ
  mode : LightBrushMode
  color : RGB ℝ

/-- LightBrushStroke (PhotoEditor.tsx lines 77-81). -/
structure LightStroke where
  id : String
  points : List (ℝ × ℝ)
  settings : LightSettings

/-- Multiply blend mode on one channel pair, 0..255 scale. -/
def multiplyBlendChannel (cb cs : K) : K :=
  cb * cs / 255

/-- Feathered alpha mask of one light-brush stroke (applyFilteredStroke,
PhotoEditor.tsx lines 1559-1564): drawFeatheredStroke on a cleared canvas
with the spread { ...stroke.settings, isErasing: false }, so the mask is
always painted, never erased. -/
noncomputable def lightStrokeMaskAlpha (stroke : LightStroke) : ℝ × ℝ → ℝ :=
  drawFeatheredStroke
    ⟨stroke.id, stroke.points,
      ⟨stroke.settings.size, stroke.settings.feather, stroke.settings.strength, false⟩⟩
    (fun _ => 0)

/-- Mode-specific temp-canvas contents of applyFilteredStroke
(PhotoEditor.tsx lines 1566-1622) before masking: the switch draws the
source raster onto a cleared canvas and applies the mode operation (lighter
fill, multiply fill, soft-light fill, or a CSS filter pass).  blurF and
sharpenF are the external cross-pixel filters as in the adjustment
pipeline. -/
noncomputable def lightStrokeTemp (blurF : ℝ → Raster ℝ → Raster ℝ)
    (sharpenF : Raster ℝ → Raster ℝ) (source : Raster ℝ) (st : LightSettings) :
    ℝ × ℝ → Pixel ℝ :=
  match st.mode with
  | .increaseWhiteLight | .increaseYellowLight => fun p =>
      pxPlus (fillPixel st.color (st.strength / 100)) (pxPlus (rgbOpaque (source.data p)) pxClear)
  | .increaseBlueDark => fun p =>
      rgbOpaque (blendFillOpaque multiplyBlendChannel st.color (1 - st.strength / 100)
        (source.data p))
  | .decreaseBrightness => fun p =>
      rgbOpaque (clampRGB (cssBrightnessRGB ((100 - st.strength * (5 / 2)) / 100) (source.data p)))
  | .decreaseHighlights => fun p =>
      rgbOpaque (blendFillOpaque softLightChannel ⟨0, 0, 0⟩ (st.strength / 100) (source.data p))
  | .increaseShadows => fun p =>
      rgbOpaque (blendFillOpaque softLightChannel ⟨255, 255, 255⟩ (st.strength / 100)
        (source.data p))
  | .increaseContrast => fun p =>
      rgbOpaque (clampRGB (cssContrastRGB ((100 + st.strength * 5) / 100) (source.data p)))
  | .decreaseContrast => fun p =>
      rgbOpaque (clampRGB (cssContrastRGB ((100 - st.strength * (5 / 2)) / 100) (source.data p)))
  | .increaseSaturation => fun p =>
      rgbOpaque (clampRGB (cssSaturateRGB ((100 + st.strength * 2) / 100) (source.data p)))
  | .decreaseSaturation => fun p =>
      rgbOpaque (clampRGB (cssSaturateRGB ((100 - st.strength) / 100) (source.data p)))
  | .increaseSharpness => fun p => rgbOpaque ((sharpenF source).data p)
  | .increaseBlur => fun p => rgbOpaque ((blurF (st.strength / 10) source).data p)

/-- Translation of applyFilteredStroke (PhotoEditor.tsx lines 1550-1629):
build the mode-specific temp canvas from the source raster, mask it by the
feathered stroke alpha with destination-in, and composite the result
source-over onto the running canvas. -/
noncomputable def applyFilteredStroke (blurF : ℝ → Raster ℝ → Raster ℝ)
    (sharpenF : Raster ℝ → Raster ℝ) (source : Raster ℝ) (running : ℝ × ℝ → Pixel ℝ)
    (stroke : LightStroke) : ℝ × ℝ → Pixel ℝ :=
  let temp := lightStrokeTemp blurF sharpenF source stroke.settings
  fun p => pxOver (pxDestIn (lightStrokeMaskAlpha stroke p) (temp p)) (running p)

/-- Light-brush section of the visible-canvas effect (PhotoEditor.tsx lines
1441-1454): when the committed list is non-empty, a temp canvas is
initialized from the visible canvas, every stroke is applied to it in
commit order with the globally-adjusted base canvas as the operation
source, and the temp canvas replaces the visible canvas. -/
noncomputable def lightBrushPass (blurF : ℝ → Raster ℝ → Raster ℝ)
    (sharpenF : Raster ℝ → Raster ℝ) (base : Raster ℝ) (visible : ℝ × ℝ → Pixel ℝ)
    (strokes : List LightStroke) : ℝ × ℝ → Pixel ℝ :=
  if strokes.length > 0 then
    strokes.foldl (fun acc s => applyFilteredStroke blurF sharpenF base acc s) visible
  else visible

/-- Statement of claim C5 as written: the same renderer, but with the
running composited image (the fold accumulator) as the source of every
mode-specific operation.  This definition follows the words of the claim
and is compared against the code translation lightBrushPass. -/
noncomputable def lightBrushPassClaimC5 (blurF : ℝ → Raster ℝ → Raster ℝ)
    (sharpenF : Raster ℝ → Raster ℝ) (base : Raster ℝ) (visible : ℝ × ℝ → Pixel ℝ)
    (strokes : List LightStroke) : ℝ × ℝ → Pixel ℝ :=
  strokes.foldl
    (fun acc s =>
      applyFilteredStroke blurF sharpenF ⟨base.width, base.height, fun p => pixelRGB (acc p)⟩
        acc s)
    visible

/-- Statement of the amended claim C5: every stroke, in commit order,
applies its mode operation to the globally-adjusted base raster, masks the
result by its own paint-only feathered alpha, and composites it source-over
onto the running image. -/
noncomputable def lightBrushPassAmended (blurF : ℝ → Raster ℝ → Raster ℝ)
    (sharpenF : Raster ℝ → Raster ℝ) (base : Raster ℝ) (visible : ℝ × ℝ → Pixel ℝ)
    (strokes : List LightStroke) : ℝ × ℝ → Pixel ℝ :=
  strokes.foldl
    (fun acc s => fun p =>
      pxOver
        (pxDestIn (lightStrokeMaskAlpha s p) (lightStrokeTemp blurF sharpenF base s.settings p))
        (acc p))
    visible

/-- Resize-handle identifiers of the overlay renderer (PhotoEditor.tsx
lines 462-463): four corners for image overlays, corners and edges for text
overlays. -/
inductive Handle where
  | tl | tr | bl | br | t | b | l | r
deriving DecidableEq, Repr

/-- The handle string contains the character r. -/
def handleHasR : Handle → Bool
  | .tr | .br | .r => true
  | _ => false

/-- The handle string contains the character l. -/
def handleHasL : Handle → Bool
  | .tl | .bl | .l => true
  | _ => false

/-- The handle string contains the character t. -/
def handleHasT : Handle → Bool
  | .tl | .tr | .t => true
  | _ => false

/-- The handle string contains the character b. -/
def handleHasB : Handle → Bool
  | .bl | .br | .b => true
  | _ => false

/-- Length of the handle string (2 for corners, 1 for edges). -/
def handleLength : Handle → ℕ
  | .tl | .tr | .bl | .br => 2
  | _ => 1

/-- Text payload of a text overlay (PhotoEditor.tsx lines 33-41). -/
structure TextData where
  text : String
  fontSize : ℝ
  fontFamily : String
  color : String
  bold : Bool
  italic : Bool

/-- Image payload of an image overlay (PhotoEditor.tsx lines 43-47). -/
structure ImagePayload where
  dataUrl : String
  aspectRatio : ℝ

/-- Discriminated overlay payload. -/
inductive OverlayPayload where
  | text : TextData → OverlayPayload
  | image : ImagePayload → OverlayPayload

/-- Overlay record: shared transform fields (PhotoEditor.tsx lines 20-31)
plus the discriminated payload.  Position and size are percentages of the
parent canvas; position is the overlay center. -/
structure OverlayRec where
  id : String
  x : ℝ
  y : ℝ
  width : ℝ
  height : ℝ
  rotation : ℝ
  opacity : ℝ
  zIndex : ℝ
  payload : OverlayPayload

/-- Raw local-frame resize deltas (handleMove resize branch, PhotoEditor.tsx
lines 379-396): the pointer delta in percentage space is rotated into the
overlay's unrotated frame, then routed to the width/height axes selected by
the handle. -/
noncomputable def rawResizeDeltas (parentW parentH rotation : ℝ) (handle : Handle)
    (dx dy : ℝ) : ℝ × ℝ :=
  let rad := rotation * Real.pi / 180
  let c := Real.cos rad
  let s := Real.sin rad
  let dxPct := dx / parentW * 100
  let dyPct := dy / parentH * 100
  let rotatedDx := dxPct * c + dyPct * s
  let rotatedDy := -dxPct * s + dyPct * c
  let dw := if handleHasR handle then rotatedDx else if handleHasL handle then -rotatedDx else 0
  let dh := if handleHasB handle then rotatedDy else if handleHasT handle then -rotatedDy else 0
  (dw, dh)

/-- Translation of the resize branch of handleMove (PhotoEditor.tsx lines
378-424): compute the raw local deltas; for image overlays couple them
through the percentage aspect ratio (corner handles follow the larger raw
delta, edge handles follow their own axis); apply the deltas to width and
height and recenter the overlay. -/
noncomputable def resizeOverlay (parentW parentH : ℝ) (o : OverlayRec) (handle : Handle)
    (dx dy : ℝ) : OverlayRec :=
  let rad := o.rotation * Real.pi / 180
  let c := Real.cos rad
  let s := Real.sin rad
  let raw := rawResizeDeltas parentW parentH o.rotation handle dx dy
  let coupled :=
    match o.payload with
    | .image im =>
        let imageAspectRatio := im.aspectRatio
        let containerAspectRatio := parentW / parentH
        let percentageAspectRatio := imageAspectRatio / containerAspectRatio
        if handleLength handle = 2 then
          if |raw.1| > |raw.2 * percentageAspectRatio| then (raw.1, raw.1 / percentageAspectRatio)
          else (raw.2 * percentageAspectRatio, raw.2)
        else
          if handleHasT handle || handleHasB handle then
            (raw.2 * percentageAspectRatio, raw.2)
          else (raw.1, raw.1 / percentageAspectRatio)
    | .text _ => raw
  { o with
    width := o.width + coupled.1
    height := o.height + coupled.2
    x := o.x + coupled.1 / 2 * c - coupled.2 / 2 * s
    y := o.y + coupled.1 / 2 * s + coupled.2 / 2 * c }

/-- Stroke-collection state of the editor: the mask layers, the light-brush
list, the removal list, and the id of the active mask layer. -/
structure StrokeState where
  maskLayers : List MaskLayerRec
  lightBrushStrokes : List LightStroke
  removeToolStrokes : List Stroke
  activeMaskLayerId : Option String

/-- Translation of handleUndoAdjustmentStroke (PhotoEditor.tsx lines
2035-2043): with no active layer the state is unchanged; otherwise every
layer whose id equals the active id loses its last stroke
(strokes.slice(0,-1)). -/
def handleUndoAdjustmentStroke (st : StrokeState) : StrokeState :=
  match st.activeMaskLayerId with
  | none => st
  | some aid =>
      { st with
        maskLayers := st.maskLayers.map fun layer =>
          if layer.id = aid then { layer with strokes := layer.strokes.dropLast } else layer }

/-- Translation of handleUndoLightBrushStroke (PhotoEditor.tsx lines
2045-2047): drop the last committed light-brush stroke. -/
def handleUndoLightBrushStroke (st : StrokeState) : StrokeState :=
  { st with lightBrushStrokes := st.lightBrushStrokes.dropLast }

/-- Translation of handleUndoRemoveStroke (PhotoEditor.tsx lines
2049-2051): drop the last committed removal stroke. -/
def handleUndoRemoveStroke (st : StrokeState) : StrokeState :=
  { st with removeToolStrokes := st.removeToolStrokes.dropLast }

/-- Whole-composite transform state (INITIAL_TRANSFORMS, PhotoEditor.tsx
lines 130-134). -/
structure Transforms where
  rotate : ℝ
  scaleX : ℝ
  scaleY : ℝ

/-- Record of one overlay draw performed by exportImage: the source overlay
together with its pixel-space center, size, rotation and alpha in the
export raster. -/
structure DrawnOverlay where
  src : OverlayRec
  px : ℝ
  py : ℝ
  pw : ℝ
  ph : ℝ
  rotation : ℝ
  alpha : ℝ

/-- Result of the export pipeline: the export raster dimensions, whether
the remove-mask pass was drawn, and the trace of overlay draws in paint
order. -/
structure ExportResult where
  width : ℝ
  height : ℝ
  removeMaskDrawn : Bool
  drawnOverlays : List DrawnOverlay

/-- Pixel-space draw parameters of one overlay in the export raster
(exportImage overlay loop, PhotoEditor.tsx lines 2098-2109): percentage
coordinates are rescaled against the export raster dimensions. -/
noncomputable def drawOverlayCommand (exportW exportH : ℝ) (o : OverlayRec) : DrawnOverlay :=
  { src := o
    px := o.x / 100 * exportW
    py := o.y / 100 * exportH
    pw := o.width / 100 * exportW
    ph := o.height / 100 * exportH
    rotation := o.rotation
    alpha := o.opacity / 100 }

/-- Translation of exportImage (PhotoEditor.tsx lines 2053-2139) at the
level of raster sizing and overlay drawing: the export canvas is sized to
the bounding box of the rotated source; the mask pass draws the remove
mask and no overlay; otherwise the overlays, stably sorted by ascending
zIndex ([...overlays].sort((a,b) => a.zIndex - b.zIndex)), are each drawn
once, rescaled into the export raster. -/
noncomputable def exportImage (tr : Transforms) (overlays : List OverlayRec)
    (srcW srcH : ℝ) (includeRemoveMask : Bool) : ExportResult :=
  let rad := tr.rotate * Real.pi / 180
  let absCos := |Real.cos rad|
  let absSin := |Real.sin rad|
  let newWidth := srcW * absCos + srcH * absSin
  let newHeight := srcW * absSin + srcH * absCos
  if includeRemoveMask then
    { width := newWidth, height := newHeight, removeMaskDrawn := true, drawnOverlays := [] }
  else
    { width := newWidth, height := newHeight, removeMaskDrawn := false,
      drawnOverlays :=
        (overlays.mergeSort (fun a b => decide (a.zIndex ≤ b.zIndex))).map
          (drawOverlayCommand newWidth newHeight) }

/-- Identity stand-in for the external blur filter (concrete evaluation). -/
def idBlur : ℝ → Raster ℝ → Raster ℝ := fun _ r => r

/-- Identity stand-in for the external sharpen filter (concrete
evaluation). -/
def idSharpen : Raster ℝ → Raster ℝ := fun r => r

/-- Concrete 1x1 mid-gray source raster. -/
def grayRaster : Raster ℝ := ⟨1, 1, fun _ => ⟨100, 100, 100⟩⟩

/-- Concrete opaque mid-gray compositing canvas. -/
def visibleGray : ℝ × ℝ → Pixel ℝ := fun _ => ⟨100, 100, 100, 1⟩

/-- Concrete one-point brush stroke. -/
def strokeA : Stroke := ⟨"s1", [(0, 0)], ⟨16, 0, 100, false⟩⟩

/-- Concrete one-point white-light stroke of strength 20. -/
def lightStrokeA : LightStroke :=
  ⟨"ls1", [(0, 0)], ⟨10, 20, 0, .increaseWhiteLight, ⟨255, 255, 255⟩⟩⟩

/-- Concrete visible brush mask layer whose owned Adjustments record is the
all-neutral record. -/
noncomputable def neutralMaskLayer : MaskLayerRec :=
  ⟨"layer1", "Layer 1", true, .brush, [strokeA], none, false, neutralAdjustments⟩

/-- Concrete stroke-collection state with one-element collections. -/
noncomputable def undoState : StrokeState :=
  ⟨[neutralMaskLayer], [lightStrokeA], [strokeA], some "layer1"⟩

/-- Concrete image overlay, 10 percent by 20 percent, intrinsic aspect
ratio 1, no rotation. -/
def imageOverlayA : OverlayRec := ⟨"o1", 0, 0, 10, 20, 0, 100, 1, .image ⟨"", 1⟩⟩

/-- Concrete square image overlay on a square container. -/
def imageOverlayB : OverlayRec := ⟨"o2", 50, 50, 10, 10, 0, 100, 2, .image ⟨"", 1⟩⟩

/-- Concrete text overlay. -/
def textOverlayA : OverlayRec :=
  ⟨"o3", 50, 50, 10, 10, 0, 100, 3, .text ⟨"hi", 16, "serif", "#ffffff", false, false⟩⟩

/-- Concrete color mixer with non-zero shifts on every band. -/
def mixerFixture : ColorMixer ℚ :=
  ⟨⟨10, -20, 30⟩, ⟨10, -20, 30⟩, ⟨10, -20, 30⟩, ⟨10, -20, 30⟩,
   ⟨10, -20, 30⟩, ⟨10, -20, 30⟩, ⟨10, -20, 30⟩, ⟨10, -20, 30⟩⟩

/-- Concrete gray pixel (zero saturation). -/
def grayRGB : RGB ℚ := ⟨128, 128, 128⟩

/-! Theorems. -/

theorem map_eq_self_of_fixed {α : Type} (f : α → α) :
    ∀ xs : List α, (∀ x ∈ xs, f x = x) → xs.map f = xs := by
  intro xs
  induction xs with
  | nil => intro _; rfl
  | cons a as ih =>
      intro h
      simp only [List.map_cons]
      rw [h a (by simp), ih (fun x hx => h x (by simp [hx]))]

/-- C6: inverting a mask layer complements its alpha surface: with the same
geometry, the alpha with the invert flag set is 1 minus the alpha without
it, at every pixel. -/
theorem mask_invert_complements_alpha (w h : ℝ) (layer : MaskLayerRec) (p : ℝ × ℝ) :
    maskSurfaceAlpha w h { layer with invert := true } p =
      1 - maskSurfaceAlpha w h { layer with invert := false } p := by
  simp [maskSurfaceAlpha, maskGeometryAlpha, alphaSourceOut]

/-- C10: the color-mixer pass leaves any pixel whose HSL saturation is
below 0.01 unchanged, whatever shifts the hue bands carry. -/
theorem color_mixer_skips_near_gray [FloorRing K] (m : ColorMixer K) (px : RGB K)
    (hs : (rgbToHsl px.r px.g px.b).s < 1 / 100) :
    applyColorMixerPixel m px = px := by
  unfold applyColorMixerPixel
  simp only [hs, if_true]

/-- Witness for C10: a mid-gray pixel has zero saturation and passes the
mixer with every band shifted unchanged. -/
theorem color_mixer_skips_near_gray_witness :
    (rgbToHsl grayRGB.r grayRGB.g grayRGB.b).s < 1 / 100 ∧
      applyColorMixerPixel mixerFixture grayRGB = grayRGB := by
  have hs : (rgbToHsl grayRGB.r grayRGB.g grayRGB.b).s < 1 / 100 := by
    norm_num [rgbToHsl, grayRGB]
  exact ⟨hs, color_mixer_skips_near_gray mixerFixture grayRGB hs⟩

/-- C8: each undo handler removes exactly the most recently committed
stroke from its own collection and leaves every other element and every
other collection unchanged: undoing the active mask layer drops the last
stroke of that layer only; undoing the light-brush or removal list drops
the last element of that list only. -/
theorem undo_removes_exactly_last_stroke (st : StrokeState) (aid : String)
    (l1 l2 : List MaskLayerRec) (layer : MaskLayerRec) (ss : List Stroke) (s : Stroke)
    (xs : List LightStroke) (x : LightStroke) (ys : List Stroke) (y : Stroke) :
    (st.activeMaskLayerId = some aid → st.maskLayers = l1 ++ layer :: l2 →
      layer.id = aid → (∀ l0 ∈ l1 ++ l2, l0.id ≠ aid) → layer.strokes = ss ++ [s] →
      handleUndoAdjustmentStroke st =
        { st with maskLayers := l1 ++ { layer with strokes := ss } :: l2 }) ∧
    (st.lightBrushStrokes = xs ++ [x] →
      handleUndoLightBrushStroke st = { st with lightBrushStrokes := xs }) ∧
    (st.removeToolStrokes = ys ++ [y] →
      handleUndoRemoveStroke st = { st with removeToolStrokes := ys }) := by
  refine ⟨?_, ?_, ?_⟩
  · intro hact hlayers hid hothers hstrokes
    unfold handleUndoAdjustmentStroke
    rw [hact]
    have h1 : l1.map (fun layer0 =>
        if layer0.id = aid then { layer0 with strokes := layer0.strokes.dropLast }
        else layer0) = l1 := by
      refine map_eq_self_of_fixed _ l1 (fun z hz => ?_)
      rw [if_neg (hothers z (List.mem_append_left _ hz))]
    have h2 : l2.map (fun layer0 =>
        if layer0.id = aid then { layer0 with strokes := layer0.strokes.dropLast }
        else layer0) = l2 := by
      refine map_eq_self_of_fixed _ l2 (fun z hz => ?_)
      rw [if_neg (hothers z (List.mem_append_right _ hz))]
    rw [hlayers]
    simp only [List.map_append, List.map_cons, h1, h2, if_pos hid, hstrokes,
      List.dropLast_concat]
  · intro hlight
    unfold handleUndoLightBrushStroke
    rw [hlight, List.dropLast_concat]
  · intro hremove
    unfold handleUndoRemoveStroke
    rw [hremove, List.dropLast_concat]

/-- Witness for C8: on a concrete state with one mask layer holding one
stroke, one light-brush stroke and one removal stroke, each undo empties
exactly its own collection. -/
theorem undo_removes_exactly_last_stroke_witness :
    handleUndoAdjustmentStroke undoState =
      { undoState with maskLayers := [{ neutralMaskLayer with strokes := [] }] } ∧
    handleUndoLightBrushStroke undoState = { undoState with lightBrushStrokes := [] } ∧
    handleUndoRemoveStroke undoState = { undoState with removeToolStrokes := [] } := by
  have h := undo_removes_exactly_last_stroke undoState "layer1" [] []
    neutralMaskLayer [] strokeA [] lightStrokeA [] strokeA
  exact ⟨h.1 rfl rfl rfl (by simp) rfl, h.2.1 rfl, h.2.2 rfl⟩

theorem skinProtectFactor_eq_claim (h : K) :
    skinProtectFactor h =
      if |h - 30| < 15 then 3 / 10 + 7 / 10 * (|h - 30| / 15) else 1 := by
  unfold skinProtectFactor
  have hband : |h - 30| < 15 ↔ 15 < h ∧ h < 45 := by
    rw [abs_sub_lt_iff]
    constructor
    · rintro ⟨h1, h2⟩
      exact ⟨by linarith, by linarith⟩
    · rintro ⟨h1, h2⟩
      exact ⟨by linarith, by linarith⟩
  by_cases hin : 15 < h ∧ h < 45
  · rw [if_pos hin, if_pos (hband.mpr hin)]
    have habs : |h - 30| < 15 := hband.mpr hin
    have hle : |h - 30| / 15 * (7 / 10) + 3 / 10 ≤ 1 := by
      have : |h - 30| / 15 < 1 := by
        rw [div_lt_one (by norm_num : (0:K) < 15)]
        exact habs
      nlinarith [abs_nonneg (h - 30)]
    rw [min_eq_right hle]
    ring
  · rw [if_neg hin, if_neg (fun hc => hin (hband.mp hc))]

/-- C3: for every pixel, the vibrance pass leaves pixels with HSL
saturation below 0.05 unchanged; for all other pixels it adds to the
saturation a boost equal to (v/50) * (1 - s^2) times a protection factor
that is 1 outside the hue band within 15 degrees of hue 30 and decreases
linearly inside the band to 0.3 at its center, clamps the new saturation to
[0,1], and rewrites the pixel from the updated HSL value. -/
theorem vibrance_pass_formula [FloorRing K] (v : K) (px : RGB K) :
    ((rgbToHsl px.r px.g px.b).s < 5 / 100 → applyVibrancePixel v px = px) ∧
    (¬ (rgbToHsl px.r px.g px.b).s < 5 / 100 →
      applyVibrancePixel v px =
        (let hsl := rgbToHsl px.r px.g px.b
         let protect := if |hsl.h - 30| < 15 then 3 / 10 + 7 / 10 * (|hsl.h - 30| / 15) else 1
         let newS := max 0 (min 1 (hsl.s + v / 50 * (1 - hsl.s ^ 2) * protect))
         if newS = hsl.s then px else hslToRgb hsl.h newS hsl.l)) := by
  constructor
  · intro hs
    unfold applyVibrancePixel
    simp only [hs, if_true]
  · intro hs
    unfold applyVibrancePixel
    simp only [hs, if_false, skinProtectFactor_eq_claim]

/-- Witness for C3: a saturated red pixel (hue 0, outside the protected
band) with vibrance 10 takes the claimed boosted saturation, and a gray
pixel is left unchanged. -/
theorem vibrance_pass_formula_witness :
    applyVibrancePixel (10 : ℚ) ⟨128, 128, 128⟩ = ⟨128, 128, 128⟩ ∧
    applyVibrancePixel (10 : ℚ) ⟨255, 0, 0⟩ =
      (let hsl := rgbToHsl (255 : ℚ) 0 0
       let protect := if |hsl.h - 30| < 15 then 3 / 10 + 7 / 10 * (|hsl.h - 30| / 15) else 1
       let newS := max 0 (min 1 (hsl.s + 10 / 50 * (1 - hsl.s ^ 2) * protect))
       if newS = hsl.s then (⟨255, 0, 0⟩ : RGB ℚ) else hslToRgb hsl.h newS hsl.l) := by
  constructor
  · exact (vibrance_pass_formula 10 ⟨128, 128, 128⟩).1 (by norm_num [rgbToHsl])
  · exact (vibrance_pass_formula 10 ⟨255, 0, 0⟩).2 (by norm_num [rgbToHsl])

theorem not_colorMixerActive_initial : ¬ colorMixerActive (initialColorMixer : ColorMixer K) := by
  simp [colorMixerActive, mixerChannelActive, initialColorMixer]

theorem clampTo_of_mem (lo hi x : K) (h1 : lo ≤ x) (h2 : x ≤ hi) : clampTo lo hi x = x := by
  rw [clampTo, min_eq_right h2, max_eq_right h1]

theorem neutral_filter_chain_identity (c : RGB ℝ)
    (hr0 : 0 ≤ c.r) (hr1 : c.r ≤ 255) (hg0 : 0 ≤ c.g) (hg1 : c.g ≤ 255)
    (hb0 : 0 ≤ c.b) (hb1 : c.b ≤ 255) :
    clampRGB (cssSaturateRGB 1 (cssContrastRGB 1 (cssBrightnessRGB 1 c))) = c := by
  have hchain : cssSaturateRGB 1 (cssContrastRGB 1 (cssBrightnessRGB 1 c)) = c := by
    unfold cssSaturateRGB cssContrastRGB cssBrightnessRGB
    cases c
    simp only [RGB.mk.injEq]
    refine ⟨by ring, by ring, by ring⟩
  rw [hchain]
  unfold clampRGB
  cases c
  simp only [RGB.mk.injEq]
  exact ⟨clampTo_of_mem _ _ _ hr0 hr1, clampTo_of_mem _ _ _ hg0 hg1, clampTo_of_mem _ _ _ hb0 hb1⟩

/-- C2: the adjustment transfer function with the all-neutral Adjustments
record is the identity on every raster whose channels are in the
representable 0..255 range: the output is pixel-identical to the input and
has the same dimensions, for any external blur and sharpen filters. -/
theorem neutral_adjustments_identity (blurF : ℝ → Raster ℝ → Raster ℝ)
    (sharpenF : Raster ℝ → Raster ℝ) (source : Raster ℝ)
    (hvalid : ∀ p, 0 ≤ (source.data p).r ∧ (source.data p).r ≤ 255 ∧
      0 ≤ (source.data p).g ∧ (source.data p).g ≤ 255 ∧
      0 ≤ (source.data p).b ∧ (source.data p).b ≤ 255) :
    applyAdjustmentsToContext blurF sharpenF neutralAdjustments source = source := by
  unfold applyAdjustmentsToContext
  norm_num [neutralAdjustments, not_colorMixerActive_initial, clampTo, min_def, max_def]
  obtain ⟨w, ht, data⟩ := source
  simp only [mapPixels, Raster.mk.injEq]
  refine ⟨trivial, trivial, funext fun p => ?_⟩
  obtain ⟨hr0, hr1, hg0, hg1, hb0, hb1⟩ := hvalid p
  exact neutral_filter_chain_identity _ hr0 hr1 hg0 hg1 hb0 hb1

/-- Witness for C2: the neutral pipeline on the concrete gray raster with
identity external filters returns the raster unchanged. -/
theorem neutral_adjustments_identity_witness :
    applyAdjustmentsToContext idBlur idSharpen neutralAdjustments grayRaster = grayRaster :=
  neutral_adjustments_identity idBlur idSharpen grayRaster
    (fun p => by norm_num [grayRaster])

theorem not_hasBrushAdjustments_neutral :
    ¬ hasBrushAdjustments (neutralAdjustments : AdjustmentsRec K) := by
  simp [hasBrushAdjustments, neutralAdjustments, not_colorMixerActive_initial]

theorem compositeMaskLayer_neutral_eq (blurF : ℝ → Raster ℝ → Raster ℝ)
    (sharpenF : Raster ℝ → Raster ℝ) (globalAdj : AdjustmentsRec ℝ) (source : Raster ℝ)
    (acc : ℝ × ℝ → Pixel ℝ) (layer : MaskLayerRec)
    (hneutral : layer.adjustments = neutralAdjustments) :
    compositeMaskLayer blurF sharpenF globalAdj source acc layer = acc := by
  unfold compositeMaskLayer
  rw [hneutral]
  cases hv : layer.isVisible <;>
    simp [hv, not_hasBrushAdjustments_neutral]

/-- C1: a mask layer whose owned Adjustments record is the all-neutral
record is skipped by the mask-layer compositor: the composited output is
pixel-identical to the output with that layer absent, whatever the layer's
mask geometry and visibility and wherever it sits in the layer stack. -/
theorem neutral_mask_layer_skipped (blurF : ℝ → Raster ℝ → Raster ℝ)
    (sharpenF : Raster ℝ → Raster ℝ) (globalAdj : AdjustmentsRec ℝ) (source : Raster ℝ)
    (l1 l2 : List MaskLayerRec) (layer : MaskLayerRec)
    (hneutral : layer.adjustments = neutralAdjustments) :
    maskLayerComposite blurF sharpenF globalAdj source (l1 ++ layer :: l2) =
      maskLayerComposite blurF sharpenF globalAdj source (l1 ++ l2) := by
  unfold maskLayerComposite
  rw [List.foldl_append, List.foldl_append, List.foldl_cons,
    compositeMaskLayer_neutral_eq blurF sharpenF globalAdj source _ layer hneutral]

/-- Witness for C1: dropping the concrete neutral-Adjustments brush layer
from a one-layer stack leaves the composite of the gray raster unchanged. -/
theorem neutral_mask_layer_skipped_witness :
    maskLayerComposite idBlur idSharpen neutralAdjustments grayRaster
        ([] ++ neutralMaskLayer :: []) =
      maskLayerComposite idBlur idSharpen neutralAdjustments grayRaster ([] ++ []) :=
  neutral_mask_layer_skipped idBlur idSharpen neutralAdjustments grayRaster [] []
    neutralMaskLayer rfl

theorem zIndexLe_trans (a b c : OverlayRec) :
    decide (a.zIndex ≤ b.zIndex) = true → decide (b.zIndex ≤ c.zIndex) = true →
      decide (a.zIndex ≤ c.zIndex) = true := by
  simp only [decide_eq_true_eq]
  exact le_trans

theorem zIndexLe_total (a b : OverlayRec) :
    (decide (a.zIndex ≤ b.zIndex) || decide (b.zIndex ≤ a.zIndex)) = true := by
  simp only [Bool.or_eq_true, decide_eq_true_eq]
  exact le_total _ _

/-- C9: the export pipeline sizes the output raster to the bounding box of
the rotated source; in the remove-mask pass no overlay is drawn; otherwise
every overlay is drawn exactly once (the drawn list is a permutation of the
session overlays) in ascending z-index order, each rescaled from
percentage coordinates into the export raster's pixel dimensions. -/
theorem export_bbox_and_overlay_order (tr : Transforms) (overlays : List OverlayRec)
    (srcW srcH : ℝ) (includeRemoveMask : Bool) :
    ((exportImage tr overlays srcW srcH includeRemoveMask).width =
        srcW * |Real.cos (tr.rotate * Real.pi / 180)| +
          srcH * |Real.sin (tr.rotate * Real.pi / 180)|) ∧
    ((exportImage tr overlays srcW srcH includeRemoveMask).height =
        srcW * |Real.sin (tr.rotate * Real.pi / 180)| +
          srcH * |Real.cos (tr.rotate * Real.pi / 180)|) ∧
    (includeRemoveMask = true →
      (exportImage tr overlays srcW srcH includeRemoveMask).drawnOverlays = []) ∧
    (includeRemoveMask = false →
      ((exportImage tr overlays srcW srcH includeRemoveMask).drawnOverlays.map
          DrawnOverlay.src).Perm overlays ∧
      ((exportImage tr overlays srcW srcH includeRemoveMask).drawnOverlays.map
          (fun d => d.src.zIndex)).Sorted (· ≤ ·) ∧
      (∀ d ∈ (exportImage tr overlays srcW srcH includeRemoveMask).drawnOverlays,
        d.px = d.src.x / 100 * (exportImage tr overlays srcW srcH includeRemoveMask).width ∧
        d.py = d.src.y / 100 * (exportImage tr overlays srcW srcH includeRemoveMask).height ∧
        d.pw = d.src.width / 100 * (exportImage tr overlays srcW srcH includeRemoveMask).width ∧
        d.ph = d.src.height / 100 *
          (exportImage tr overlays srcW srcH includeRemoveMask).height ∧
        d.rotation = d.src.rotation ∧ d.alpha = d.src.opacity / 100)) := by
  cases includeRemoveMask with
  | true =>
      refine ⟨rfl, rfl, fun _ => rfl, fun hfalse => by simp at hfalse⟩
  | false =>
      refine ⟨rfl, rfl, fun htrue => by simp at htrue, fun _ => ?_⟩
      refine ⟨?_, ?_, ?_⟩
      · have hmap : (exportImage tr overlays srcW srcH false).drawnOverlays.map
            DrawnOverlay.src =
            overlays.mergeSort (fun a b => decide (a.zIndex ≤ b.zIndex)) := by
          simp only [exportImage, Bool.false_eq_true, if_false, List.map_map]
          exact map_eq_self_of_fixed _ _ (fun x _ => rfl)
        rw [hmap]
        exact List.mergeSort_perm overlays _
      · have hpair : List.Pairwise (fun a b : OverlayRec => a.zIndex ≤ b.zIndex)
            (overlays.mergeSort (fun a b => decide (a.zIndex ≤ b.zIndex))) := by
          have := @List.sorted_mergeSort OverlayRec
            (fun a b : OverlayRec => decide (a.zIndex ≤ b.zIndex))
            zIndexLe_trans zIndexLe_total overlays
          exact this.imp (by simp only [decide_eq_true_eq]; exact id)
        have hmap2 : (exportImage tr overlays srcW srcH false).drawnOverlays.map
            (fun d => d.src.zIndex) =
            (overlays.mergeSort (fun a b => decide (a.zIndex ≤ b.zIndex))).map
              (fun o => o.zIndex) := by
          simp [exportImage, drawOverlayCommand, List.map_map, Function.comp]
        rw [List.Sorted, hmap2, List.pairwise_map]
        exact hpair
      · intro d hd
        simp only [exportImage, Bool.false_eq_true, if_false, List.mem_map] at hd
        obtain ⟨o, _, rfl⟩ := hd
        exact ⟨rfl, rfl, rfl, rfl, rfl, rfl⟩

/-- Witness for C9: on a concrete session, the mask pass draws no overlay
and the normal pass draws the permuted overlay list. -/
theorem export_bbox_and_overlay_order_witness :
    (exportImage ⟨0, 1, 1⟩ [imageOverlayB, textOverlayA] 100 50 true).drawnOverlays = [] ∧
    ((exportImage ⟨0, 1, 1⟩ [imageOverlayB, textOverlayA] 100 50 false).drawnOverlays.map
        DrawnOverlay.src).Perm [imageOverlayB, textOverlayA] := by
  constructor
  · exact (export_bbox_and_overlay_order ⟨0, 1, 1⟩ [imageOverlayB, textOverlayA]
      100 50 true).2.2.1 rfl
  · exact ((export_bbox_and_overlay_order ⟨0, 1, 1⟩ [imageOverlayB, textOverlayA]
      100 50 false).2.2.2 rfl).1

/-- Counterexample for C7: on a 200x100 container, resizing the concrete
image overlay (intrinsic aspect ratio 1) from the bottom-right corner
leaves the stored width/height ratio at 1/2, not at the intrinsic aspect
ratio: the aspect lock preserves the pixel-space ratio, not the ratio of
the stored percentage fields. -/
theorem overlay_resize_ratio_counterexample :
    (resizeOverlay 200 100 imageOverlayA Handle.br 20 4).width /
      (resizeOverlay 200 100 imageOverlayA Handle.br 20 4).height ≠ 1 := by
  have heval : resizeOverlay 200 100 imageOverlayA Handle.br 20 4 =
      { imageOverlayA with width := 20, height := 40, x := 5, y := 10 } := by
    unfold resizeOverlay rawResizeDeltas
    norm_num [imageOverlayA, handleHasR, handleHasL, handleHasT, handleHasB, handleLength,
      Real.cos_zero, Real.sin_zero]
  rw [heval]
  norm_num [imageOverlayA]

/-- C7 (amended): an image overlay resize preserves the pixel-space aspect
ratio: if width * parentW = aspectRatio * (height * parentH) before the
update, the same holds after it, for every handle, rotation and pointer
delta; text overlays are unconstrained: the raw local-frame deltas are
applied to width and height unchanged. -/
theorem overlay_resize_aspect_lock (parentW parentH : ℝ) (o : OverlayRec)
    (handle : Handle) (dx dy : ℝ) :
    (∀ im, o.payload = .image im → 0 < parentW → 0 < parentH → 0 < im.aspectRatio →
      o.width * parentW = im.aspectRatio * (o.height * parentH) →
      (resizeOverlay parentW parentH o handle dx dy).width * parentW =
        im.aspectRatio * ((resizeOverlay parentW parentH o handle dx dy).height * parentH)) ∧
    (∀ td, o.payload = .text td →
      (resizeOverlay parentW parentH o handle dx dy).width =
        o.width + (rawResizeDeltas parentW parentH o.rotation handle dx dy).1 ∧
      (resizeOverlay parentW parentH o handle dx dy).height =
        o.height + (rawResizeDeltas parentW parentH o.rotation handle dx dy).2) := by
  constructor
  · intro im him hpw hph har hinv
    have hpARpos : 0 < im.aspectRatio / (parentW / parentH) :=
      div_pos har (div_pos hpw hph)
    have hpp : im.aspectRatio / (parentW / parentH) * parentW = im.aspectRatio * parentH := by
      field_simp
    have hkey : ∀ c1 c2 : ℝ, c1 = c2 * (im.aspectRatio / (parentW / parentH)) →
        (o.width + c1) * parentW = im.aspectRatio * ((o.height + c2) * parentH) := by
      intro c1 c2 hcc
      calc (o.width + c1) * parentW
          = o.width * parentW + c2 * (im.aspectRatio / (parentW / parentH) * parentW) := by
            rw [hcc]; ring
        _ = im.aspectRatio * (o.height * parentH) + c2 * (im.aspectRatio * parentH) := by
            rw [hinv, hpp]
        _ = im.aspectRatio * ((o.height + c2) * parentH) := by ring
    unfold resizeOverlay
    simp only [him]
    split_ifs with h1 h2 h3
    · exact hkey _ _ (by rw [div_mul_cancel₀ _ (ne_of_gt hpARpos)])
    · exact hkey _ _ rfl
    · exact hkey _ _ rfl
    · exact hkey _ _ (by rw [div_mul_cancel₀ _ (ne_of_gt hpARpos)])
  · intro td htd
    unfold resizeOverlay
    simp only [htd]
    constructor <;> trivial

/-- Witness for C7 (amended): the concrete square image overlay on a square
container keeps its pixel aspect ratio 1 after a corner resize, and the
concrete text overlay receives the raw deltas unchanged. -/
theorem overlay_resize_aspect_lock_witness :
    (resizeOverlay 100 100 imageOverlayB Handle.br 0 0).width * 100 =
        1 * ((resizeOverlay 100 100 imageOverlayB Handle.br 0 0).height * 100) ∧
    (resizeOverlay 100 100 textOverlayA Handle.br 3 4).width =
        textOverlayA.width + (rawResizeDeltas 100 100 textOverlayA.rotation Handle.br 3 4).1 := by
  constructor
  · exact (overlay_resize_aspect_lock 100 100 imageOverlayB Handle.br 0 0).1
      ⟨"", 1⟩ rfl (by norm_num) (by norm_num) (by norm_num) (by norm_num [imageOverlayB])
  · exact ((overlay_resize_aspect_lock 100 100 textOverlayA Handle.br 3 4).2
      ⟨"hi", 16, "serif", "#ffffff", false, false⟩ rfl).1

theorem map_range_getElem?_eq {β : Type} (f : ℕ → β) (n i : ℕ) (x : β)
    (h : ((List.range n).map f)[i]? = some x) : x = f i := by
  rw [List.getElem?_map] at h
  have hlen : i < n := by
    by_contra hc
    rw [List.getElem?_eq_none (by simpa using le_of_not_lt hc)] at h
    exact Option.noConfusion h
  rw [List.getElem?_range hlen] at h
  simp only [Option.map_some'] at h
  exact (Option.some_inj.mp h).symm

theorem segmentSamples_concrete : segmentSamples (0, 0) (8, 0) 16 = [(0, 0), (4, 0)] := by
  have hstep : resampleStep 16 = 4 := by
    rw [resampleStep]; norm_num [min_def, max_def]
  have h64 : Real.sqrt (((8:ℝ) - 0) ^ 2 + ((0:ℝ) - 0) ^ 2) = 8 := by
    rw [show (((8:ℝ) - 0) ^ 2 + ((0:ℝ) - 0) ^ 2) = 8 ^ 2 by norm_num]
    exact Real.sqrt_sq (by norm_num)
  simp only [segmentSamples]
  rw [hstep, h64]
  have hceil : ⌈(8:ℝ) / 4⌉₊ = 2 := by
    rw [show (8:ℝ) / 4 = 2 by norm_num]
    simp
  rw [hceil, show List.range 2 = [0, 1] from rfl]
  norm_num [Prod.ext_iff]

theorem segmentSamples_spacing (p1 p2 : ℝ × ℝ) (size : ℝ) (i : ℕ) (a b : ℝ × ℝ)
    (hne : p1 ≠ p2)
    (ha : (segmentSamples p1 p2 size)[i]? = some a)
    (hb : (segmentSamples p1 p2 size)[i + 1]? = some b) :
    Real.sqrt ((b.1 - a.1) ^ 2 + (b.2 - a.2) ^ 2) = resampleStep size := by
  simp only [segmentSamples] at ha hb
  have ha' := map_range_getElem?_eq _ _ _ _ ha
  have hb' := map_range_getElem?_eq _ _ _ _ hb
  have hne2 : p2.1 - p1.1 ≠ 0 ∨ p2.2 - p1.2 ≠ 0 := by
    by_contra hc
    push_neg at hc
    exact hne (Prod.ext_iff.mpr ⟨by linarith [hc.1], by linarith [hc.2]⟩)
  have hpos : 0 < (p2.1 - p1.1) ^ 2 + (p2.2 - p1.2) ^ 2 := by
    rcases hne2 with h | h
    · have h1 : 0 < (p2.1 - p1.1) ^ 2 := by positivity
      nlinarith [sq_nonneg (p2.2 - p1.2)]
    · have h1 : 0 < (p2.2 - p1.2) ^ 2 := by positivity
      nlinarith [sq_nonneg (p2.1 - p1.1)]
  have hdistpos : 0 < Real.sqrt ((p2.1 - p1.1) ^ 2 + (p2.2 - p1.2) ^ 2) :=
    Real.sqrt_pos.mpr hpos
  have hsq : Real.sqrt ((p2.1 - p1.1) ^ 2 + (p2.2 - p1.2) ^ 2) ^ 2 =
      (p2.1 - p1.1) ^ 2 + (p2.2 - p1.2) ^ 2 := Real.sq_sqrt (le_of_lt hpos)
  have hstep1 : (1:ℝ) ≤ resampleStep size := le_max_left _ _
  have hsteppos : 0 < resampleStep size := lt_of_lt_of_le one_pos hstep1
  rw [ha', hb']
  push_cast
  have hd : Real.sqrt ((p2.1 - p1.1) ^ 2 + (p2.2 - p1.2) ^ 2) ≠ 0 := ne_of_gt hdistpos
  have hexpr :
      (p1.1 + ((i:ℝ) + 1) * resampleStep size * (p2.1 - p1.1) /
          Real.sqrt ((p2.1 - p1.1) ^ 2 + (p2.2 - p1.2) ^ 2) -
        (p1.1 + (i:ℝ) * resampleStep size * (p2.1 - p1.1) /
          Real.sqrt ((p2.1 - p1.1) ^ 2 + (p2.2 - p1.2) ^ 2))) ^ 2 +
      (p1.2 + ((i:ℝ) + 1) * resampleStep size * (p2.2 - p1.2) /
          Real.sqrt ((p2.1 - p1.1) ^ 2 + (p2.2 - p1.2) ^ 2) -
        (p1.2 + (i:ℝ) * resampleStep size * (p2.2 - p1.2) /
          Real.sqrt ((p2.1 - p1.1) ^ 2 + (p2.2 - p1.2) ^ 2))) ^ 2 =
      resampleStep size ^ 2 := by
    field_simp
    ring
  rw [hexpr, Real.sqrt_sq (le_of_lt hsteppos)]

/-- Counterexample for C4: the concrete horizontal stroke segment of a
size-16 brush (radius 8) is resampled at consecutive sample points (0,0)
and (4,0): the spacing, 4 pixels, exceeds radius/4 = 2, so the resampling
step is not bounded by a quarter of the brush radius. -/
theorem brush_resample_spacing_counterexample :
    (segmentSamples (0, 0) (8, 0) 16)[0]? = some (0, 0) ∧
    (segmentSamples (0, 0) (8, 0) 16)[1]? = some (4, 0) ∧
    ¬ (Real.sqrt (((4:ℝ) - 0) ^ 2 + ((0:ℝ) - 0) ^ 2) ≤ 16 / 2 / 4) := by
  refine ⟨by rw [segmentSamples_concrete]; rfl, by rw [segmentSamples_concrete]; rfl, ?_⟩
  rw [show (((4:ℝ) - 0) ^ 2 + ((0:ℝ) - 0) ^ 2) = 4 ^ 2 by norm_num,
    Real.sqrt_sq (by norm_num : (0:ℝ) ≤ 4)]
  norm_num

/-- C4 (amended): the mask builder resamples each stroke segment at a
spacing equal to max(1, min(10, size/4)) — that is min(10, radius/2)
floored at one pixel, where radius = size/2 is the brush radius — and each
dab paints full strength strength/100 from distance 0 out to
radius * (1 - sqrt(feather/100)), fades linearly beyond that stop, and is
zero from the radius outward. -/
theorem brush_resample_and_dab_profile (p1 p2 : ℝ × ℝ) (size feather strength : ℝ)
    (i : ℕ) (a b : ℝ × ℝ) (d : ℝ) :
    (p1 ≠ p2 → (segmentSamples p1 p2 size)[i]? = some a →
      (segmentSamples p1 p2 size)[i + 1]? = some b →
      Real.sqrt ((b.1 - a.1) ^ 2 + (b.2 - a.2) ^ 2) = resampleStep size) ∧
    (resampleStep size = max 1 (min 10 (size / 2 / 2))) ∧
    (0 < size / 2 → 0 ≤ d → d ≤ dabInnerStop feather * (size / 2) → d < size / 2 →
      dabAlpha size feather strength d = strength / 100) ∧
    (size / 2 ≤ d → dabAlpha size feather strength d = 0) ∧
    (0 < size / 2 → dabInnerStop feather * (size / 2) < d → d < size / 2 →
      dabAlpha size feather strength d =
        strength / 100 * (size / 2 - d) / (size / 2 - dabInnerStop feather * (size / 2))) := by
  refine ⟨segmentSamples_spacing p1 p2 size i a b, ?_, ?_, ?_, ?_⟩
  · rw [resampleStep, show size / 2 / 2 = size / 4 by ring]
  · intro hR h0 hin hlt
    unfold dabAlpha
    rw [if_neg (not_le.mpr hR), if_neg (not_le.mpr hlt), if_pos hin]
  · intro hout
    unfold dabAlpha
    by_cases hR : size / 2 ≤ 0
    · rw [if_pos hR]
    · rw [if_neg hR, if_pos hout]
  · intro hR hlow hhi
    unfold dabAlpha
    rw [if_neg (not_le.mpr hR), if_neg (not_le.mpr hhi), if_neg (not_le.mpr hlow)]

/-- Witness for C4 (amended): on the concrete size-16 stroke the spacing of
the first two samples equals the resampling step, and a feather-0 size-16
dab is full strength at its center and zero at distance 9 beyond the
radius. -/
theorem brush_resample_and_dab_profile_witness :
    Real.sqrt (((4:ℝ) - 0) ^ 2 + ((0:ℝ) - 0) ^ 2) = resampleStep 16 ∧
    dabAlpha 16 0 100 0 = 100 / 100 ∧
    dabAlpha 16 0 100 9 = 0 := by
  have hinner : dabInnerStop 0 = 1 := by
    rw [dabInnerStop]
    norm_num [Real.sqrt_zero]
  refine ⟨?_, ?_, ?_⟩
  · exact (brush_resample_and_dab_profile (0, 0) (8, 0) 16 0 100 0 (0, 0) (4, 0) 0).1
      (by norm_num [Prod.ext_iff]) (by rw [segmentSamples_concrete]; rfl)
      (by rw [segmentSamples_concrete]; rfl)
  · exact (brush_resample_and_dab_profile (0, 0) (8, 0) 16 0 100 0 (0, 0) (4, 0) 0).2.2.1
      (by norm_num) (le_refl 0) (by rw [hinner]; norm_num) (by norm_num)
  · exact (brush_resample_and_dab_profile (0, 0) (8, 0) 16 0 100 0 (0, 0) (4, 0) 9).2.2.2.1
      (by norm_num)

theorem lightStrokeMaskAlpha_concrete : lightStrokeMaskAlpha lightStrokeA (0, 0) = 1 / 5 := by
  unfold lightStrokeMaskAlpha drawFeatheredStroke
  simp only [lightStrokeA, strokeSamplePoints]
  simp only [List.foldl_cons, List.foldl_nil]
  have hd : Real.sqrt (((0:ℝ) - 0) ^ 2 + ((0:ℝ) - 0) ^ 2) = 0 := by
    norm_num [Real.sqrt_zero]
  rw [hd]
  have hdab : dabAlpha 10 0 20 0 = 1 / 5 := by
    unfold dabAlpha dabInnerStop
    norm_num [Real.sqrt_zero]
  rw [hdab]
  norm_num [alphaSourceOver]

theorem lightStrokeTemp_whiteLight (src : Raster ℝ) (p : ℝ × ℝ) :
    lightStrokeTemp idBlur idSharpen src lightStrokeA.settings p =
      pxPlus (fillPixel ⟨255, 255, 255⟩ (20 / 100)) (pxPlus (rgbOpaque (src.data p)) pxClear) :=
  rfl

/-- Counterexample for C5: with two identical white-light strokes over a
mid-gray composite, the renderer brightens by one stroke only (the mode
operation always reads the globally-adjusted base canvas), while the
claimed renderer — whose operation source is the running composited image,
including earlier light strokes — brightens cumulatively: the two disagree
at the stroke center. -/
theorem light_stroke_source_counterexample :
    lightBrushPass idBlur idSharpen grayRaster visibleGray [lightStrokeA, lightStrokeA] (0, 0) ≠
      lightBrushPassClaimC5 idBlur idSharpen grayRaster visibleGray
        [lightStrokeA, lightStrokeA] (0, 0) := by
  have hcode : lightBrushPass idBlur idSharpen grayRaster visibleGray
      [lightStrokeA, lightStrokeA] (0, 0) = ⟨2959 / 25, 2959 / 25, 2959 / 25, 1⟩ := by
    unfold lightBrushPass applyFilteredStroke
    simp only [List.length_cons, List.foldl_cons, List.foldl_nil, gt_iff_lt, if_pos,
      Nat.succ_pos, lightStrokeTemp_whiteLight, lightStrokeMaskAlpha_concrete]
    norm_num [pxPlus, pxDestIn, pxOver, pxClear, fillPixel, rgbOpaque, visibleGray,
      grayRaster, min_def, Pixel.mk.injEq]
  have hclaim : lightBrushPassClaimC5 idBlur idSharpen grayRaster visibleGray
      [lightStrokeA, lightStrokeA] (0, 0) = ⟨3010 / 25, 3010 / 25, 3010 / 25, 1⟩ := by
    unfold lightBrushPassClaimC5 applyFilteredStroke
    simp only [List.foldl_cons, List.foldl_nil, lightStrokeTemp_whiteLight,
      lightStrokeMaskAlpha_concrete]
    norm_num [pxPlus, pxDestIn, pxOver, pxClear, fillPixel, rgbOpaque, pixelRGB, visibleGray,
      grayRaster, min_def, Pixel.mk.injEq]
  rw [hcode, hclaim]
  simp only [ne_eq, Pixel.mk.injEq]
  norm_num

/-- C5 (amended): the light-brush renderer applies, for every committed
stroke in commit order, the stroke's mode-specific operation with the
globally-adjusted base raster as its source (not the running composite),
masks the result by the stroke's feathered alpha with paint semantics only,
and composites it source-over onto the running image. -/
theorem light_strokes_draw_from_base (blurF : ℝ → Raster ℝ → Raster ℝ)
    (sharpenF : Raster ℝ → Raster ℝ) (base : Raster ℝ) (visible : ℝ × ℝ → Pixel ℝ)
    (strokes : List LightStroke) :
    lightBrushPass blurF sharpenF base visible strokes =
      lightBrushPassAmended blurF sharpenF base visible strokes := by
  unfold lightBrushPass lightBrushPassAmended applyFilteredStroke
  cases strokes with
  | nil => simp
  | cons s rest => simp

end IvanPhoto
